import Mathlib

/-!
Verification of the lazy virtual-stack viewer built in
`docs/80_image_analysis_with_dask/3_lazy_image_processing.ipynb`.

The notebook builds a lazy 4-D (time, depth, height, width) view over a
directory of multi-page TIFF files:

* `files = sorted(glob(file_pattern))` — the Frame Locator: matching file
  paths in lexicographic order, used as the time axis;
* `load_2d(t, z) = tifffile.TiffFile(files[t]).pages[z].asarray()` — a
  single-plane read of one file;
* `ims = da.stack([da.stack([da.from_delayed(load_2d(t, z), ...) ...])])` —
  the lazy volume of shape `(N_t, N_z, N_x, N_y)`;
* `ims.max(1)` — a maximum projection over the depth axis;
* `da.map_overlap(f, img_da, depth=m)` — block-wise evaluation with an
  overlap margin;
* `browse_images` / `view_image` — the axis browser, which renders
  `ims[pos].T` with `pos` assembled from sliders named `dim 0`,
  `dim 1`, ….

The embedding below models pixel data as `Nat` values (the notebook's
`uint16` payloads), planes as row lists, files as plane lists, and the
file system as a map from path to file data.  Reads are instrumented with
an explicit event log so that "exactly one single-plane read" is a
provable statement.
-/

/-- Code-point comparison of character lists: the lexicographic string
order Python's `sorted` uses. -/
def charsLe : List Char → List Char → Bool
  | [], _ => true
  | _ :: _, [] => false
  | a :: as, b :: bs =>
    if a.toNat < b.toNat then true
    else if b.toNat < a.toNat then false
    else charsLe as bs

/-- Lexicographic order on path strings (Python's default string order). -/
def strLe (a b : String) : Bool := charsLe a.data b.data

theorem charsLe_trans : ∀ (a b c : List Char),
    charsLe a b = true → charsLe b c = true → charsLe a c = true
  | [], _, _, _, _ => rfl
  | _ :: _, [], _, h1, _ => by simp [charsLe] at h1
  | _ :: _, _ :: _, [], _, h2 => by simp [charsLe] at h2
  | a :: as, b :: bs, c :: cs, h1, h2 => by
    simp only [charsLe] at h1 h2 ⊢
    split_ifs at h1 h2 ⊢ <;>
      first
        | rfl
        | omega
        | exact charsLe_trans as bs cs h1 h2

theorem charsLe_total : ∀ (a b : List Char),
    (charsLe a b || charsLe b a) = true
  | [], _ => by simp [charsLe]
  | _ :: _, [] => by simp [charsLe]
  | a :: as, b :: bs => by
    simp only [charsLe]
    split_ifs <;> simp <;>
      first
        | omega
        | exact (Bool.or_eq_true _ _).mp (charsLe_total as bs)

theorem strLe_trans (a b c : String) :
    strLe a b = true → strLe b c = true → strLe a c = true :=
  charsLe_trans a.data b.data c.data

theorem strLe_total (a b : String) : (strLe a b || strLe b a) = true :=
  charsLe_total a.data b.data

/-- Lexicographic string order as a relation, for the sort below. -/
def strLeP (a b : String) : Prop := strLe a b = true

instance : DecidableRel strLeP := fun a b => by unfold strLeP; infer_instance

instance : IsTrans String strLeP := ⟨strLe_trans⟩

instance : IsTotal String strLeP := by
  constructor
  intro a b
  have h := strLe_total a b
  rcases (Bool.or_eq_true _ _).mp h with h | h
  · exact Or.inl h
  · exact Or.inr h

/-- Glob-style matching of a pattern against a file name: `*` matches any
(possibly empty) run of characters, `?` matches one character, anything
else matches itself — the fragment of `glob` semantics the notebook's
pattern `data/large_3d_dataset_tp*.tif` uses.  Each step consumes at
least one pattern or subject character, so a fuel of
`pattern.length + subject.length + 1` (supplied by `globMatch`) never
runs out. -/
def globAux : Nat → List Char → List Char → Bool
  | 0, p, s => p.isEmpty && s.isEmpty
  | fuel + 1, p, s =>
    match p with
    | [] => s.isEmpty
    | c :: ps =>
      if c = '*' then
        (globAux fuel ps s ||
          match s with
          | [] => false
          | _ :: s2 => globAux fuel (c :: ps) s2)
      else
        match s with
        | [] => false
        | c2 :: s2 => (c = '?' || c = c2) && globAux fuel ps s2

/-- `glob(pattern)` membership test for one directory entry. -/
def globMatch (p s : List Char) : Bool := globAux (p.length + s.length + 1) p s

/-- One multi-page TIFF file: its element type tag and its list of planes
(each plane a list of rows of `uint16` pixel values, modelled as `Nat`). -/
structure FileData where
  dtype : String
  planes : List (List (List Nat))
deriving Repr, DecidableEq

/-- The on-disk world: a map from file path to file contents. -/
def FS : Type := String → FileData

/-- `files = sorted(glob(file_pattern))`: the Frame Locator's scan result —
the directory entries matching the pattern, stably sorted into
lexicographic path order. -/
def filesOf (dir : List String) (pat : String) : List String :=
  List.insertionSort strLeP (dir.filter fun f => globMatch pat.data f.data)

/-- A read of pixel payload from disk, as logged by the instrumented
reader: either a single-plane read (`TiffFile(file).pages[z].asarray()`)
or a whole-file read. -/
inductive ReadEvent where
  | planeRead (file : String) (z : Nat)
  | wholeRead (file : String)
deriving Repr, DecidableEq

/-- `load_2d(t, z) = tifffile.TiffFile(files[t]).pages[z].asarray()`:
loads the single 2-D plane `z` of the `t`-th file, logging exactly one
single-plane read of that file. -/
def load_2d (fs : FS) (files : List String) (t z : Nat) :
    List (List Nat) × List ReadEvent :=
  ((fs (files.getD t "")).planes.getD z [],
   [ReadEvent.planeRead (files.getD t "") z])

/-- Rectangular crop of a plane: rows `[y0, y0+h)`, columns `[x0, x0+w)`
(dask slicing of a materialized chunk). -/
def crop2 (p : List (List Nat)) (y0 h x0 w : Nat) : List (List Nat) :=
  ((p.drop y0).take h).map fun r => (r.drop x0).take w

/-- Materializing a rectangular region of the stacked lazy array `ims`:
every `(t, z)` pair inside the region triggers its own `load_2d` chunk
read, whose result is cropped to the requested height/width window; the
read log collects the constituent reads in logical index order. -/
def computeRegion (fs : FS) (files : List String)
    (t0 nt z0 nz y0 ny x0 nx : Nat) :
    List (List (List (List Nat))) × List ReadEvent :=
  let loads := (List.range nt).map fun dt =>
    (List.range nz).map fun dz => load_2d fs files (t0 + dt) (z0 + dz)
  (loads.map (List.map fun r => crop2 r.1 y0 ny x0 nx),
   (loads.map fun row => (row.map Prod.snd).join).join)

/-- The shape the notebook reports for the lazy array: `N_t` from the
number of files, `N_z`/`N_x`/`N_y` from the zarr metadata of the file
series (plane count and plane dimensions of the first file). -/
def volShape (fs : FS) (files : List String) : Nat × Nat × Nat × Nat :=
  (files.length,
   (fs (files.getD 0 "")).planes.length,
   ((fs (files.getD 0 "")).planes.getD 0 []).length,
   (((fs (files.getD 0 "")).planes.getD 0 []).getD 0 []).length)

/-- Pixel lookup in a plane (0 outside bounds). -/
def pix (p : List (List Nat)) (y x : Nat) : Nat := (p.getD y []).getD x 0

/-- A plane is rectangular with `h` rows of `w` pixels. -/
def rect (p : List (List Nat)) (h w : Nat) : Prop :=
  p.length = h ∧ ∀ y, y < h → (p.getD y []).length = w

instance (p : List (List Nat)) (h w : Nat) : Decidable (rect p h w) := by
  unfold rect; infer_instance

theorem crop2_full (p : List (List Nat)) (Y X : Nat) (hp : rect p Y X) :
    crop2 p 0 Y 0 X = p := by
  obtain ⟨h1, h2⟩ := hp
  unfold crop2
  rw [List.drop_zero, ← h1, List.take_length]
  have hrow : ∀ r ∈ p, (r.drop 0).take X = r := by
    intro r hr
    rw [List.drop_zero]
    apply List.take_of_length_le
    obtain ⟨y, hy, rfl⟩ := List.getElem_of_mem hr
    have := h2 y (by omega)
    rw [List.getD_eq_getElem?_getD, List.getElem?_eq_getElem (by omega)] at this
    simp at this
    omega
  calc p.map (fun r => (r.drop 0).take X) = p.map id := List.map_congr_left fun r hr => hrow r hr
    _ = p := List.map_id p

theorem computeRegion_single (fs : FS) (files : List String)
    (t z y0 ny x0 nx : Nat) :
    computeRegion fs files t 1 z 1 y0 ny x0 nx =
      ([[crop2 ((fs (files.getD t "")).planes.getD z []) y0 ny x0 nx]],
       [ReadEvent.planeRead (files.getD t "") z]) := by
  simp [computeRegion, load_2d, List.range_succ]

/-- Claim C1: for every `(t, z)` within the bounds of the built lazy
volume, materializing the single-plane region at `(t, z)` returns a buffer
bit-identical to plane `z` of the `t`-th file in the Frame Locator's
sorted order, and the read log is exactly one single-plane read of that
one file — no whole-file read and no read touching a second file. -/
theorem singlePlane_compute_exact (fs : FS) (dir : List String) (pat : String)
    (t z Y X : Nat)
    (ht : t < (filesOf dir pat).length)
    (hz : z < (fs ((filesOf dir pat).getD t "")).planes.length)
    (hp : rect ((fs ((filesOf dir pat).getD t "")).planes.getD z []) Y X) :
    computeRegion fs (filesOf dir pat) t 1 z 1 0 Y 0 X =
      ([[(fs ((filesOf dir pat).getD t "")).planes.getD z []]],
       [ReadEvent.planeRead ((filesOf dir pat).getD t "") z]) := by
  rw [computeRegion_single, crop2_full _ Y X hp]

/-- Example world used by the concrete witnesses below: two files of two
2×2 planes each, with pairwise distinct pixel values. -/
def fsW : FS := fun f =>
  if f = "data/tp0.tif" then
    ⟨"uint16", [[[1, 2], [3, 4]], [[5, 6], [7, 8]]]⟩
  else if f = "data/tp1.tif" then
    ⟨"uint16", [[[9, 10], [11, 12]], [[13, 14], [15, 16]]]⟩
  else
    ⟨"uint16", []⟩

/-- The example directory listing (deliberately unsorted) and pattern. -/
def dirW : List String := ["data/tp1.tif", "data/tp0.tif", "data/readme.txt"]

def patW : String := "data/tp*.tif"

theorem singlePlane_compute_exact_witness :
    1 < (filesOf dirW patW).length ∧
    1 < (fsW ((filesOf dirW patW).getD 1 "")).planes.length ∧
    rect ((fsW ((filesOf dirW patW).getD 1 "")).planes.getD 1 []) 2 2 ∧
    computeRegion fsW (filesOf dirW patW) 1 1 1 1 0 2 0 2 =
      ([[(fsW ((filesOf dirW patW).getD 1 "")).planes.getD 1 []]],
       [ReadEvent.planeRead ((filesOf dirW patW).getD 1 "") 1]) :=
  ⟨by decide, by decide, by decide,
   singlePlane_compute_exact fsW dirW patW 1 1 2 2 (by decide) (by decide) (by decide)⟩

/-- Claim C5: the Frame Locator's scan enumerates exactly the matching
file paths (a permutation of the filtered directory listing), orders them
lexicographically by path string, and this order is the time axis: the
lazy volume's time index `t` reads from the `t`-th path of the sorted
list. -/
theorem scan_sorted_is_time_axis (fs : FS) (dir : List String) (pat : String) :
    (filesOf dir pat).Pairwise strLeP ∧
    (filesOf dir pat).Perm (dir.filter fun f => globMatch pat.data f.data) ∧
    ∀ t z, load_2d fs (filesOf dir pat) t z =
      ((fs ((filesOf dir pat).getD t "")).planes.getD z [],
       [ReadEvent.planeRead ((filesOf dir pat).getD t "") z]) :=
  ⟨List.sorted_insertionSort strLeP _,
   List.perm_insertionSort strLeP _,
   fun _ _ => rfl⟩

/-- Errors the spec's Frame Locator surfaces at scan time. -/
inductive ScanError where
  | NoFilesFound
  | DatasetInconsistent
deriving Repr, DecidableEq

/-- The spec's FrameIndex: the sorted paths, each annotated with its plane
count, plus the common per-plane shape and element type. -/
structure FrameIndex where
  files : List String
  planeCounts : List Nat
  planeShape : Nat × Nat
  dtype : String
deriving Repr, DecidableEq

/-- Per-plane shape reported by a file's metadata (rows, columns of its
first plane). -/
def fileShape (fd : FileData) : Nat × Nat :=
  ((fd.planes.getD 0 []).length, ((fd.planes.getD 0 []).getD 0 []).length)

/-- Modelled from the spec: the notebook obtains metadata through
`zarr.open(tifffile.imread(file_pattern, aszarr=True))` and has no
explicit error taxonomy of its own; the spec's `scan(directory, pattern)`
contract prescribes failing with `NoFilesFound` when the pattern matches
zero files and with `DatasetInconsistent` when any file's per-plane shape
or element type disagrees with the first file's, both before any
LazyVolume is built. -/
def scanE (fs : FS) (dir : List String) (pat : String) :
    Except ScanError FrameIndex :=
  match h : filesOf dir pat with
  | [] => .error .NoFilesFound
  | f0 :: rest =>
    if (f0 :: rest).all fun f =>
        fileShape (fs f) = fileShape (fs f0) ∧ (fs f).dtype = (fs f0).dtype
    then .ok ⟨f0 :: rest, (f0 :: rest).map fun f => (fs f).planes.length,
              fileShape (fs f0), (fs f0).dtype⟩
    else .error .DatasetInconsistent

/-- Claim C6: if the pattern matches zero files, `scan` fails with
`NoFilesFound` immediately at scan time; no FrameIndex (hence no
LazyVolume) is produced. -/
theorem scan_empty_noFilesFound (fs : FS) (dir : List String) (pat : String)
    (h : dir.filter (fun f => globMatch pat.data f.data) = []) :
    scanE fs dir pat = .error .NoFilesFound := by
  have hfiles : filesOf dir pat = [] := by
    unfold filesOf
    rw [h]
    rfl
  unfold scanE
  split
  · rfl
  · next f0 rest heq => rw [hfiles] at heq; exact absurd heq (by simp)

theorem scan_empty_noFilesFound_witness :
    (["data/readme.txt"].filter fun f => globMatch patW.data f.data) = [] ∧
    scanE fsW ["data/readme.txt"] patW = .error .NoFilesFound :=
  ⟨by decide,
   scan_empty_noFilesFound fsW ["data/readme.txt"] patW (by decide)⟩

/-- Claim C7: if any matched file's per-plane shape or element type
disagrees with the first file's, `scan` fails with `DatasetInconsistent`
at construction time — an `Except.error` is returned, so no FrameIndex
and hence no LazyVolume is ever built, and the mismatch is neither
coerced nor deferred. -/
theorem scan_inconsistent_fails (fs : FS) (dir : List String) (pat : String)
    (f : String) (hmem : f ∈ filesOf dir pat)
    (hne : ¬ (fileShape (fs f) = fileShape (fs ((filesOf dir pat).getD 0 "")) ∧
              (fs f).dtype = (fs ((filesOf dir pat).getD 0 "")).dtype)) :
    scanE fs dir pat = .error .DatasetInconsistent := by
  unfold scanE
  split
  · next heq => rw [heq] at hmem; exact absurd hmem (by simp)
  · next f0 rest heq =>
    rw [if_neg]
    intro hall
    rw [heq] at hmem
    have := (List.all_eq_true.mp hall) f hmem
    simp only [decide_eq_true_eq] at this
    rw [heq] at hne
    simp only [List.getD_cons_zero] at hne
    exact hne this

/-- A world with one inconsistent file: `tpbad` has 10×12 planes where the
others have 2×2. -/
def fsBad : FS := fun f =>
  if f = "data/tpbad.tif" then
    ⟨"uint16", [[List.replicate 12 0, List.replicate 12 0]]⟩
  else fsW f

theorem scan_inconsistent_fails_witness :
    "data/tpbad.tif" ∈ filesOf (dirW ++ ["data/tpbad.tif"]) patW ∧
    scanE fsBad (dirW ++ ["data/tpbad.tif"]) patW = .error .DatasetInconsistent := by
  refine ⟨by decide, scan_inconsistent_fails fsBad (dirW ++ ["data/tpbad.tif"]) patW
    "data/tpbad.tif" (by decide) (by decide)⟩

/-- Consistency of a file list: every file holds `Z` planes, each a
rectangular `Y`×`X` plane. -/
def consistent (fs : FS) (files : List String) (Z Y X : Nat) : Prop :=
  ∀ f ∈ files, (fs f).planes.length = Z ∧
    ∀ p ∈ (fs f).planes, rect p Y X

instance (fs : FS) (files : List String) (Z Y X : Nat) :
    Decidable (consistent fs files Z Y X) := by
  unfold consistent; infer_instance

/-- Claim C2: a lazy volume over `T` files of `Z` planes of shape `Y`×`X`
reports overall shape `(T, Z, Y, X)`, and materializing the region
`(t = 2, z = 1, full Y, full X)` performs exactly one single-plane read,
of plane 1 of file 2 only. -/
theorem volShape_and_single_read (fs : FS) (files : List String)
    (T Z Y X : Nat) (hT : files.length = T)
    (hcons : consistent fs files Z Y X)
    (hT2 : 2 < T) (hZ : 1 ≤ Z) (hY : 1 ≤ Y) :
    volShape fs files = (T, Z, Y, X) ∧
    (computeRegion fs files 2 1 1 1 0 Y 0 X).2 =
      [ReadEvent.planeRead (files.getD 2 "") 1] := by
  constructor
  · cases files with
    | nil => simp at hT; omega
    | cons f0 rest =>
      have h0 := hcons f0 (List.mem_cons_self f0 rest)
      obtain ⟨hlen, hplanes⟩ := h0
      have hp0 : (fs f0).planes.getD 0 [] ∈ (fs f0).planes := by
        rw [List.getD_eq_getElem?_getD, List.getElem?_eq_getElem (by omega)]
        exact List.getElem_mem _
      obtain ⟨hpY, hpX⟩ := hplanes _ hp0
      unfold volShape
      simp only [List.getD_cons_zero, hT]
      rw [hlen, hpY, hpX 0 (by omega)]
  · rw [computeRegion_single]

/-- Five-file world for the C2 scenario: each file has 3 planes of shape
10×10. -/
def fs5 : FS := fun f =>
  if f = "data/s0.tif" ∨ f = "data/s1.tif" ∨ f = "data/s2.tif" ∨
     f = "data/s3.tif" ∨ f = "data/s4.tif" then
    ⟨"uint16", List.replicate 3 (List.replicate 10 (List.replicate 10 7))⟩
  else ⟨"uint16", []⟩

def files5 : List String :=
  ["data/s0.tif", "data/s1.tif", "data/s2.tif", "data/s3.tif", "data/s4.tif"]

theorem volShape_and_single_read_witness :
    volShape fs5 files5 = (5, 3, 10, 10) ∧
    (computeRegion fs5 files5 2 1 1 1 0 10 0 10).2 =
      [ReadEvent.planeRead (files5.getD 2 "") 1] :=
  volShape_and_single_read fs5 files5 5 3 10 10 (by decide) (by decide)
    (by decide) (by decide) (by decide)

/-- Elementwise maximum of two planes (numpy broadcasting of `max` over
equally-shaped chunks). -/
def maxPlane (A B : List (List Nat)) : List (List Nat) :=
  List.zipWith (fun ra rb => List.zipWith max ra rb) A B

/-- `ims.max(1)` materialized on an output sub-region: the projected
volume maps the requested `(t, y, x)` window to input requests covering
the full depth range `0 ≤ z < Z`, loads each depth plane of file `t`,
crops it to the window, and reduces the stack by elementwise maximum. -/
def computeMaxProjRegion (fs : FS) (files : List String)
    (Z t y0 h x0 w : Nat) : List (List Nat) × List ReadEvent :=
  let loads := (List.range Z).map fun z => load_2d fs files t z
  let planes := loads.map fun r => crop2 r.1 y0 h x0 w
  (match planes with
   | [] => []
   | p :: rest => rest.foldl maxPlane p,
   (loads.map Prod.snd).join)

theorem getD_zipWith {α β γ : Type} (f : α → β → γ) (as : List α)
    (bs : List β) (i : Nat) (h1 : i < as.length) (h2 : i < bs.length)
    (d1 : α) (d2 : β) (d3 : γ) :
    (List.zipWith f as bs).getD i d3 = f (as.getD i d1) (bs.getD i d2) := by
  simp [List.getD_eq_getElem?_getD, List.getElem?_zipWith',
    List.getElem?_eq_getElem h1, List.getElem?_eq_getElem h2]

theorem rect_maxPlane {A B : List (List Nat)} {h w : Nat}
    (hA : rect A h w) (hB : rect B h w) : rect (maxPlane A B) h w := by
  obtain ⟨hA1, hA2⟩ := hA
  obtain ⟨hB1, hB2⟩ := hB
  constructor
  · simp [maxPlane, hA1, hB1]
  · intro y hy
    rw [maxPlane, getD_zipWith _ A B y (by omega) (by omega) [] []]
    rw [List.length_zipWith, hA2 y hy, hB2 y hy]
    omega

theorem pix_maxPlane {A B : List (List Nat)} {h w : Nat}
    (hA : rect A h w) (hB : rect B h w) (i j : Nat)
    (hi : i < h) (hj : j < w) :
    pix (maxPlane A B) i j = max (pix A i j) (pix B i j) := by
  unfold pix
  rw [maxPlane, getD_zipWith _ A B i (by rw [hA.1]; exact hi)
    (by rw [hB.1]; exact hi) [] []]
  exact getD_zipWith max _ _ j (by rw [hA.2 i hi]; exact hj)
    (by rw [hB.2 i hi]; exact hj) 0 0 0

theorem rect_crop2 {p : List (List Nat)} {Y X y0 h x0 w : Nat}
    (hp : rect p Y X) (hy : y0 + h ≤ Y) (hx : x0 + w ≤ X) :
    rect (crop2 p y0 h x0 w) h w := by
  obtain ⟨h1, h2⟩ := hp
  constructor
  · simp [crop2]
    omega
  · intro y hyh
    unfold crop2
    rw [List.getD_eq_getElem?_getD, List.getElem?_map,
      List.getElem?_take_of_lt hyh, List.getElem?_drop,
      List.getElem?_eq_getElem (by omega)]
    simp only [Option.map_some', Option.getD_some, List.length_take,
      List.length_drop]
    have := h2 (y0 + y) (by omega)
    rw [List.getD_eq_getElem?_getD, List.getElem?_eq_getElem (by omega)] at this
    simp only [Option.getD_some] at this
    rw [this]
    omega

theorem pix_crop2 {p : List (List Nat)} {Y X y0 h x0 w : Nat}
    (hp : rect p Y X) (hy : y0 + h ≤ Y) (hx : x0 + w ≤ X)
    (i j : Nat) (hi : i < h) (hj : j < w) :
    pix (crop2 p y0 h x0 w) i j = pix p (y0 + i) (x0 + j) := by
  obtain ⟨h1, h2⟩ := hp
  unfold pix crop2
  have houter :
      (((p.drop y0).take h).map fun r => (r.drop x0).take w).getD i [] =
        ((p.getD (y0 + i) []).drop x0).take w := by
    rw [List.getD_eq_getElem?_getD
        (((p.drop y0).take h).map fun r => (r.drop x0).take w) i [],
      List.getElem?_map, List.getElem?_take_of_lt hi, List.getElem?_drop,
      List.getElem?_eq_getElem (by omega)]
    simp only [Option.map_some', Option.getD_some]
    rw [List.getD_eq_getElem?_getD p (y0 + i) [],
      List.getElem?_eq_getElem (by omega)]
    rfl
  rw [houter,
    List.getD_eq_getElem?_getD (((p.getD (y0 + i) []).drop x0).take w) j 0,
    List.getElem?_take_of_lt hj, List.getElem?_drop]
  simp [List.getD_eq_getElem?_getD]

theorem pix_foldl_maxPlane (L : List (List (List Nat)))
    (P : List (List Nat)) (h w i j : Nat) (hP : rect P h w)
    (hL : ∀ A ∈ L, rect A h w) (hi : i < h) (hj : j < w) :
    pix (L.foldl maxPlane P) i j =
      L.foldl (fun a A => max a (pix A i j)) (pix P i j) := by
  induction L generalizing P with
  | nil => rfl
  | cons A L ih =>
    simp only [List.foldl_cons]
    rw [ih (maxPlane P A)
      (rect_maxPlane hP (hL A (List.mem_cons_self A L)))
      (fun B hB => hL B (List.mem_cons_of_mem A hB)),
      pix_maxPlane hP (hL A (List.mem_cons_self A L)) i j hi hj]

/-- Claim C4: for every sub-region of the output of the depth projection
`ims.max(1)`, each computed pixel equals the pointwise maximum over the
full depth range `0 ≤ z < Z` of the corresponding
time/height/width slab of the input volume. -/
theorem maxProj_pointwise (fs : FS) (files : List String)
    (Z Y X t y0 h x0 w i j : Nat)
    (hcons : consistent fs files Z Y X) (ht : t < files.length)
    (hZ : 1 ≤ Z) (hy : y0 + h ≤ Y) (hx : x0 + w ≤ X)
    (hi : i < h) (hj : j < w) :
    pix (computeMaxProjRegion fs files Z t y0 h x0 w).1 i j =
      (List.range Z).foldl
        (fun a z =>
          max a (pix ((fs (files.getD t "")).planes.getD z [])
            (y0 + i) (x0 + j))) 0 := by
  have hmem : files.getD t "" ∈ files := by
    rw [List.getD_eq_getElem?_getD, List.getElem?_eq_getElem ht]
    exact List.getElem_mem _
  obtain ⟨hlen, hplanes⟩ := hcons (files.getD t "") hmem
  set fd := fs (files.getD t "") with hfd
  have hrectz : ∀ z, z < Z → rect (fd.planes.getD z []) Y X := by
    intro z hz
    apply hplanes
    rw [List.getD_eq_getElem?_getD, List.getElem?_eq_getElem (by omega)]
    exact List.getElem_mem _
  obtain ⟨m, rfl⟩ : ∃ m, Z = m + 1 := ⟨Z - 1, by omega⟩
  have hplaneseq :
      ((List.range (m + 1)).map fun z => load_2d fs files t z).map
          (fun r => crop2 r.1 y0 h x0 w) =
        (List.range (m + 1)).map
          fun z => crop2 (fd.planes.getD z []) y0 h x0 w := by
    rw [List.map_map]
    rfl
  unfold computeMaxProjRegion
  simp only [hplaneseq]
  rw [List.range_succ_eq_map]
  simp only [List.map_cons, List.map_map]
  rw [pix_foldl_maxPlane _ _ h w i j
    (rect_crop2 (hrectz 0 (by omega)) hy hx)
    (by
      intro A hA
      obtain ⟨z, hz, rfl⟩ := List.mem_map.mp hA
      exact rect_crop2 (hrectz (z + 1) (by
        have := List.mem_range.mp hz
        omega)) hy hx)
    hi hj]
  rw [List.foldl_map, List.foldl_cons, List.foldl_map]
  rw [pix_crop2 (hrectz 0 (by omega)) hy hx i j hi hj, Nat.zero_max]
  apply List.foldl_ext
  intro a z hz
  have hzm := List.mem_range.mp hz
  simp only [Function.comp_apply]
  rw [pix_crop2 (hrectz (z + 1) (by omega)) hy hx i j hi hj]

theorem maxProj_pointwise_witness :
    pix (computeMaxProjRegion fsW ["data/tp0.tif", "data/tp1.tif"] 2 1 1 1 0 2).1 0 1 =
      (List.range 2).foldl
        (fun a z =>
          max a (pix ((fsW (["data/tp0.tif", "data/tp1.tif"].getD 1 "")).planes.getD z [])
            (1 + 0) (0 + 1))) 0 :=
  maxProj_pointwise fsW ["data/tp0.tif", "data/tp1.tif"] 2 2 2 1 1 1 0 2 0 1
    (by decide) (by decide) (by decide) (by decide) (by decide)
    (by decide) (by decide)

/-- A 2-D buffer of known extent: `val` is meaningful on
`[0, h) × [0, w)`. -/
structure Buf where
  h : Nat
  w : Nat
  val : Int → Int → Int

/-- Read with the constant border policy (the `mode=constant` border in the
notebook's filter calls): zero outside the buffer. -/
def get0 (b : Buf) (i j : Int) : Int :=
  if 0 ≤ i ∧ i < (b.h : Int) ∧ 0 ≤ j ∧ j < (b.w : Int) then b.val i j else 0

/-- Applying a windowed transform `g` over a whole buffer: the output at
`(i, j)` is `g` of the window of the buffer centred there, borders filled
by the constant policy. -/
def winApply (g : (Int → Int → Int) → Int) (b : Buf) : Buf :=
  ⟨b.h, b.w, fun i j => g fun p q => get0 b (i + p) (j + q)⟩

/-- `g` is a neighborhood transform whose support fits within margin `m`:
its value depends only on the window entries at offsets of magnitude at
most `m`. -/
def localWin (m : Nat) (g : (Int → Int → Int) → Int) : Prop :=
  ∀ u v : Int → Int → Int,
    (∀ p q : Int, -(m : Int) ≤ p → p ≤ m → -(m : Int) ≤ q → q ≤ m →
      u p q = v p q) →
    g u = g v

/-- The padded fetch of `da.map_overlap` for the requested region
`[a, a+s) × [c, c+t)`: the region grown by the overlap margin `m` on each
side, clamped to the volume's bounds. -/
def paddedFetch (m : Nat) (b : Buf) (a c s t : Nat) : Buf :=
  ⟨min (a + s + m) b.h - (a - m),
   min (c + t + m) b.w - (c - m),
   fun i j => b.val (((a - m : Nat) : Int) + i) (((c - m : Nat) : Int) + j)⟩

/-- `da.map_overlap(f, ..., depth=m)` evaluated on one requested region:
fetch the region padded by `m` (clamped at the volume bounds), apply the
transform to the fetched chunk, and trim the margin, returning the
central `s × t` window. -/
def mapOverlapRegion (m : Nat) (g : (Int → Int → Int) → Int) (b : Buf)
    (a c s t : Nat) : Buf :=
  let out := winApply g (paddedFetch m b a c s t)
  ⟨s, t, fun i j =>
    out.val (((a : Int) - ((a - m : Nat) : Int)) + i)
            (((c : Int) - ((c - m : Nat) : Int)) + j)⟩

/-- Cropping a buffer to the region `[a, a+s) × [c, c+t)`. -/
def cropRegion (b : Buf) (a c s t : Nat) : Buf :=
  ⟨s, t, fun i j => b.val ((a : Int) + i) ((c : Int) + j)⟩

/-- Two buffers agree: same extents and same values at every in-bounds
position. -/
def bufEqOn (A B : Buf) : Prop :=
  A.h = B.h ∧ A.w = B.w ∧
    ∀ i j : Int, 0 ≤ i → i < (A.h : Int) → 0 ≤ j → j < (A.w : Int) →
      A.val i j = B.val i j

/-- Claim C3: for a neighborhood transform `g` whose support fits within
the overlap margin `m`, evaluating a region through the map-with-overlap
mechanism (fetch the region padded by `m`, clamped at the volume bounds,
apply `g`, trim the margin) yields the same buffer as applying `g` to the
fully materialized volume and cropping to that region. -/
theorem mapOverlap_eq_whole_crop (m : Nat) (g : (Int → Int → Int) → Int)
    (hg : localWin m g) (b : Buf) (a c s t : Nat)
    (ha : a + s ≤ b.h) (hc : c + t ≤ b.w) :
    bufEqOn (mapOverlapRegion m g b a c s t)
      (cropRegion (winApply g b) a c s t) := by
  refine ⟨rfl, rfl, ?_⟩
  intro i j hi0 hiS hj0 hjT
  simp only [mapOverlapRegion, cropRegion, winApply]
  apply hg
  intro p q hp0 hp1 hq0 hq1
  simp only [get0, paddedFetch]
  have hiS' : i < (s : Int) := by exact_mod_cast hiS
  have hjT' : j < (t : Int) := by exact_mod_cast hjT
  split_ifs with h1 h2 h2
  · congr 1 <;> push_cast <;> ring
  · exfalso; omega
  · exfalso; omega
  · rfl

/-- A concrete neighborhood transform of support 1 (a small stencil sum),
for the witness below. -/
def gW : (Int → Int → Int) → Int := fun u => u 0 0 + u 1 0 + u 0 (-1)

/-- A concrete 4×3 buffer for the witness below. -/
def bufW : Buf := ⟨4, 3, fun i j => 10 * i + j + 1⟩

theorem mapOverlap_eq_whole_crop_witness :
    bufEqOn (mapOverlapRegion 1 gW bufW 1 1 2 2)
      (cropRegion (winApply gW bufW) 1 1 2 2) :=
  mapOverlap_eq_whole_crop 1 gW
    (by
      intro u v hagree
      unfold gW
      rw [hagree 0 0 (by decide) (by decide) (by decide) (by decide),
        hagree 1 0 (by decide) (by decide) (by decide) (by decide),
        hagree 0 (-1) (by decide) (by decide) (by decide) (by decide)])
    bufW 1 1 2 2 (by decide) (by decide)

/-- Error the spec's Axis Browser reports for a bad index. -/
inductive BrowserError where
  | IndexOutOfRange
deriving Repr, DecidableEq

/-- Modelled from the spec: the notebook's `browse_images` holds its
scroll state inside ipywidgets sliders (`scroll_shape = ims.shape[:-2]`,
one slider per leading axis); the spec's `attach`/`BrowserState`
reifies that state as the leading-axis extents plus the current index
tuple. -/
structure BrowserState where
  scrollShape : List Nat
  pos : List Nat
deriving Repr, DecidableEq

/-- The browser's `compute` of the single 2-D plane at a full index
tuple `pos = (t, z)`: the `(t, z, full Y, full X)` region of the lazy
volume, returning the materialized plane together with its read log. -/
def browserCompute (fs : FS) (files : List String) (Y X : Nat)
    (pos : List Nat) : List (List Nat) × List ReadEvent :=
  let r := computeRegion fs files (pos.getD 0 0) 1 (pos.getD 1 0) 1 0 Y 0 X
  ((r.1.getD 0 []).getD 0 [], r.2)

/-- Modelled from the spec: the notebook's sliders are clamped to
`(0, s-1)` by the widget library and there is no explicit `set_index`;
the spec prescribes `set_index(axis, value)` validating the new value
against that axis's extent — failing with `IndexOutOfRange` and leaving
the current index unchanged otherwise — then updating the axis's
position and immediately computing the single 2-D plane at the full
current index tuple. -/
def set_index (compute : List Nat → List (List Nat) × List ReadEvent)
    (st : BrowserState) (axis v : Nat) :
    BrowserState × Except BrowserError (List (List Nat) × List ReadEvent) :=
  if axis < st.scrollShape.length ∧ v < st.scrollShape.getD axis 0 then
    let st2 : BrowserState := ⟨st.scrollShape, st.pos.set axis v⟩
    (st2, .ok (compute st2.pos))
  else (st, .error .IndexOutOfRange)

/-- Claim C8: `set_index` with a value outside `[0, extent-1]` reports
`IndexOutOfRange` and leaves the browser's current index tuple unchanged;
with an in-range value it updates that axis's position and materializes
exactly the single 2-D plane at the full current index tuple — one
single-plane read of one file. -/
theorem set_index_bounds (fs : FS) (files : List String) (Y X : Nat)
    (st : BrowserState) (axis v : Nat) :
    (¬ (axis < st.scrollShape.length ∧ v < st.scrollShape.getD axis 0) →
      set_index (browserCompute fs files Y X) st axis v =
        (st, .error .IndexOutOfRange)) ∧
    ((axis < st.scrollShape.length ∧ v < st.scrollShape.getD axis 0) →
      (set_index (browserCompute fs files Y X) st axis v).1.pos =
          st.pos.set axis v ∧
      (set_index (browserCompute fs files Y X) st axis v).2 =
        .ok (browserCompute fs files Y X (st.pos.set axis v)) ∧
      (browserCompute fs files Y X (st.pos.set axis v)).2 =
        [ReadEvent.planeRead
          (files.getD ((st.pos.set axis v).getD 0 0) "")
          ((st.pos.set axis v).getD 1 0)]) := by
  constructor
  · intro hout
    rw [set_index, if_neg hout]
  · intro hin
    refine ⟨?_, ?_, ?_⟩
    · rw [set_index, if_pos hin]
    · rw [set_index, if_pos hin]
    · unfold browserCompute
      rw [computeRegion_single]

theorem set_index_bounds_witness :
    (set_index (browserCompute fsW (filesOf dirW patW) 2 2)
        ⟨[2, 2], [0, 0]⟩ 1 5 =
      (⟨[2, 2], [0, 0]⟩, .error .IndexOutOfRange)) ∧
    ((set_index (browserCompute fsW (filesOf dirW patW) 2 2)
        ⟨[2, 2], [0, 0]⟩ 1 1).1.pos = [0, 1] ∧
      (set_index (browserCompute fsW (filesOf dirW patW) 2 2)
        ⟨[2, 2], [0, 0]⟩ 1 1).2 =
        .ok (browserCompute fsW (filesOf dirW patW) 2 2 [0, 1]) ∧
      (browserCompute fsW (filesOf dirW patW) 2 2 [0, 1]).2 =
        [ReadEvent.planeRead ((filesOf dirW patW).getD 0 "") 1]) := by
  constructor
  · exact (set_index_bounds fsW (filesOf dirW patW) 2 2
      ⟨[2, 2], [0, 0]⟩ 1 5).1 (by decide)
  · have h := (set_index_bounds fsW (filesOf dirW patW) 2 2
      ⟨[2, 2], [0, 0]⟩ 1 1).2 (by decide)
    exact h

/-- numpy's `.T` on a 2-D array: entry `(i, j)` of the result is entry
`(j, i)` of the input (extents taken from the array's shape). -/
def npT (p : List (List Nat)) : List (List Nat) :=
  (List.range ((p.getD 0 []).length)).map fun i =>
    (List.range p.length).map fun j => pix p j i

/-- The plane `ims[pos]` selected by the browser's index tuple
`pos = (t, z)`. -/
def planeAt (fs : FS) (files : List String) (pos : List Nat) :
    List (List Nat) :=
  (fs (files.getD (pos.getD 0 0) "")).planes.getD (pos.getD 1 0) []

/-- `view_image`'s rendered image: `plt.imshow(ims[tuple(pos)].T, ...)` —
the transpose of the materialized slice. -/
def view_image (fs : FS) (files : List String) (pos : List Nat) :
    List (List Nat) :=
  npT (planeAt fs files pos)

/-- Claim C9: the 2-D image the browser renders is the transpose of the
materialized slice: for every index tuple over the leading axes and every
display pixel `(i, j)`, the displayed value equals the volume element at
row `j`, column `i` of the selected trailing-two-axes plane. -/
theorem view_image_transposed (fs : FS) (files : List String)
    (pos : List Nat) (Y X i j : Nat)
    (hrect : rect (planeAt fs files pos) Y X) (hi : i < X) (hj : j < Y) :
    pix (view_image fs files pos) i j = pix (planeAt fs files pos) j i := by
  obtain ⟨h1, h2⟩ := hrect
  have hrow0 : ((planeAt fs files pos).getD 0 []).length = X :=
    h2 0 (by omega)
  unfold view_image npT
  unfold pix
  rw [List.getD_eq_getElem?_getD
      ((List.range (((planeAt fs files pos).getD 0 []).length)).map _) i [],
    List.getElem?_map, List.getElem?_range (by rw [hrow0]; exact hi)]
  simp only [Option.map_some', Option.getD_some]
  rw [List.getD_eq_getElem?_getD ((List.range (planeAt fs files pos).length).map _) j 0,
    List.getElem?_map, List.getElem?_range (by rw [h1]; exact hj)]
  simp [pix]

theorem view_image_transposed_witness :
    rect (planeAt fsW (filesOf dirW patW) [1, 0]) 2 2 ∧
    pix (view_image fsW (filesOf dirW patW) [1, 0]) 0 1 =
      pix (planeAt fsW (filesOf dirW patW) [1, 0]) 1 0 :=
  ⟨by decide,
   view_image_transposed fsW (filesOf dirW patW) [1, 0] 2 2 0 1
     (by decide) (by decide) (by decide)⟩

/-- The slider name the browser creates for leading axis `k` (the
Python format `dim %s` applied to `k`). -/
def dimName (k : Nat) : String := "dim " ++ toString k

/-- `sorted(kwargs)`: the slider names in Python string order. -/
def sortedDims (n : Nat) : List String :=
  List.insertionSort strLeP ((List.range n).map dimName)

/-- `pos = tuple(kwargs[dim] for dim in sorted(kwargs))`: the browser's
index tuple, assembled by iterating the slider names in string order and
looking each up in the kwargs mapping. -/
def posTuple (n : Nat) (kw : String → Nat) : List Nat :=
  (sortedDims n).map kw

/-- Claim C10: the browser assembles the index tuple by sorting its
slider names `dim 0`, `dim 1`, … as strings; with at most 10 leading
axes this string order equals the axis order, so the tuple's `k`-th entry
is the position of leading axis `k`. -/
theorem posTuple_axis_order (n : Nat) (kw : String → Nat) (k : Nat)
    (hn : n ≤ 10) (hk : k < n) :
    (posTuple n kw).getD k 0 = kw (dimName k) := by
  have hsort : sortedDims n = (List.range n).map dimName := by
    interval_cases n <;> decide
  unfold posTuple
  rw [hsort, List.map_map, List.getD_eq_getElem?_getD, List.getElem?_map,
    List.getElem?_range hk]
  simp

theorem posTuple_axis_order_witness :
    (posTuple 10 (fun s => s.length)).getD 7 0 =
      (fun s : String => s.length) (dimName 7) :=
  posTuple_axis_order 10 (fun s => s.length) 7 (by decide) (by decide)
